import Mathlib

/-!
Verification model of `SafeCallbacks.hpp` (repository `LeoNatan/CPPSafeCallbacks`).

The header implements a lifetime-bound callback safety layer with three parts:

* `safe_callbacks_impl` — the registry: an `is_cancelled` flag (readable without
  locking), a mutex, and a table `cancellables` mapping the address of a
  wrapper's cancellation entry to a weak reference to that entry.
* `safe_function_wrapper_impl` — the per-wrapper shared state: a recursive
  mutex, a `callable` slot (a `unique_ptr` to the stored `std::function`), the
  `default_return_value`, a weak reference `owner` to the registry, and a
  shared cancellation entry `cancel`.
* `safe_function_wrapper` — the handle: construction stores the callable,
  builds the cancellation entry, and registers it; `operator()` invokes the
  callable when present and otherwise returns per the default-result policy;
  the static `cancel` clears the callable slot of a still-alive impl.

This file gives a shallow embedding of those operations and proves the
specification claims about them.  Wrapper impls are addressed by a `WId`
(standing for the `void*` key used in the registry's table); the `impls`
field of the system state maps a `WId` to the impl state when the impl is
alive (the target of the weak references), and `allocated` records which
addresses have ever been handed out (addresses are never reused in the
model, matching fresh heap allocations).
-/

namespace SafeCallbacks

/-- Identity of a wrapper impl / its cancellation entry (the `void*` table key). -/
abbrev WId := Nat

/-- Which compile-time branch of the cancelled path of
`safe_function_wrapper::operator()` (lines 188–208 of `SafeCallbacks.hpp`)
was selected for this instantiation:

* `voidResult`  — `R` is void: `return;`
* `valueInit`   — `R` non-void, no explicit default (`DVR` void): `return {};`
* `copyDefault` — explicit default, `DVR` copy constructible: return a copy
* `moveDefault` — explicit default, not copy constructible: return by move -/
inductive DefaultPolicy where
  | voidResult
  | valueInit
  | copyDefault
  | moveDefault
deriving DecidableEq

/-- State of one `safe_function_wrapper_impl`.  `callable` is the
`unique_ptr<std::function<R(Args...)>>` slot (`none` = empty / reset);
`default_return_value` the stored default; `movedFrom` records whether the
stored default has been consumed by the move branch of the cancelled path. -/
structure WImpl (Arg Ret : Type) where
  callable : Option (Arg → Ret)
  policy : DefaultPolicy
  default_return_value : Ret
  movedFrom : Bool

variable {Arg Ret : Type}

/-- Effect of `safe_function_wrapper::cancel` on an impl: `callable.reset()`,
everything else untouched. -/
def WImpl.cancelSelf (w : WImpl Arg Ret) : WImpl Arg Ret :=
  { w with callable := none }

/-- Result of one call of `safe_function_wrapper::operator()`: the returned
value, the impl state after the call, and `calledWith = some a` exactly when
the underlying callable was invoked (with argument `a`). -/
structure InvokeRes (Arg Ret : Type) where
  result : Ret
  impl : WImpl Arg Ret
  calledWith : Option Arg

/-- `safe_function_wrapper::operator()` (lines 176–219).  Under the wrapper's
lock: if the callable slot is empty, return per the default-result policy
(`default` models the value-initialised `R{}`, and for a void `R` the trivial
returned value); otherwise forward the arguments to the stored callable and
return its result unchanged. -/
def WImpl.invoke [Inhabited Ret] (w : WImpl Arg Ret) (a : Arg) : InvokeRes Arg Ret :=
  match w.callable with
  | none =>
    match w.policy with
    | .voidResult => ⟨default, w, none⟩
    | .valueInit => ⟨default, w, none⟩
    | .copyDefault => ⟨w.default_return_value, w, none⟩
    | .moveDefault => ⟨w.default_return_value, { w with movedFrom := true }, none⟩
  | some f => ⟨f a, w, some a⟩

/-- Whole-system state: the registry (`safe_callbacks_impl`) plus the heap of
wrapper impls.  `registryAlive` is whether the `safe_callbacks` object (and
hence the shared registry impl) still exists — the target of the wrappers'
weak `owner` references; `cancelled` is `is_cancelled`; `table` the keys
present in `cancellables`; `impls k` the impl at address `k` when alive. -/
structure Sys (Arg Ret : Type) where
  registryAlive : Bool
  cancelled : Bool
  table : List WId
  impls : WId → Option (WImpl Arg Ret)
  allocated : WId → Bool

/-- Pointwise update of the impl heap at one address. -/
def setImpl (impls : WId → Option (WImpl Arg Ret)) (k : WId) (v : Option (WImpl Arg Ret)) :
    WId → Option (WImpl Arg Ret) :=
  fun j => if j = k then v else impls j

/-- Invocation of a wrapper's cancellation entry
(`safe_function_wrapper::cancel(weak_impl)`, lines 224–234): if the weak
reference still resolves, lock the impl and `callable.reset()`; otherwise do
nothing. -/
def Sys.entryInvoke (s : Sys Arg Ret) (k : WId) : Sys Arg Ret :=
  match s.impls k with
  | some w => { s with impls := setImpl s.impls k (some w.cancelSelf) }
  | none => s

/-- Calling the wrapper handle for impl `k` (`operator()`): updates that
impl by `WImpl.invoke` when it is alive. -/
def Sys.invokeOp [Inhabited Ret] (s : Sys Arg Ret) (k : WId) (a : Arg) : Sys Arg Ret :=
  match s.impls k with
  | some w => { s with impls := setImpl s.impls k (some (w.invoke a).impl) }
  | none => s

/-- One iteration of the teardown sweep of `~safe_callbacks` (lines 258–264):
lock the weak reference for key `k` and, when it resolves, invoke the
cancellation entry (clearing that impl's callable slot). -/
def sweepOne (impls : WId → Option (WImpl Arg Ret)) (k : WId) :
    WId → Option (WImpl Arg Ret) :=
  setImpl impls k ((impls k).map WImpl.cancelSelf)

/-- `~safe_callbacks` (lines 250–266): set `is_cancelled`, take the registry
lock, invoke every still-alive cancellation entry in the table, clear the
table; afterwards the registry impl itself is released, so the wrappers'
weak `owner` references no longer resolve. -/
def Sys.teardown (s : Sys Arg Ret) : Sys Arg Ret :=
  { registryAlive := false
    cancelled := true
    table := []
    impls := s.table.foldl sweepOne s.impls
    allocated := s.allocated }

/-- `safe_callbacks_impl::remove_cancellable` (lines 84–97): if
`is_cancelled`, return; otherwise lock and erase the entry for the key. -/
def Sys.remove_cancellable (s : Sys Arg Ret) (k : WId) : Sys Arg Ret :=
  if s.cancelled then s else { s with table := s.table.erase k }

/-- `safe_function_wrapper_impl::remove_cancel` (lines 145–152): if the weak
`owner` reference still resolves, call `remove_cancellable`; otherwise do
nothing. -/
def Sys.remove_cancel (s : Sys Arg Ret) (k : WId) : Sys Arg Ret :=
  if s.registryAlive then s.remove_cancellable k else s

/-- First step of `~safe_function_wrapper_impl` (line 128): `callable.reset()`. -/
def Sys.destroyStep1 (s : Sys Arg Ret) (k : WId) : Sys Arg Ret :=
  { s with impls := setImpl s.impls k ((s.impls k).map WImpl.cancelSelf) }

/-- `~safe_function_wrapper_impl` through `remove_cancel()` (lines 128–129):
the callable slot has been cleared and the registry entry removal attempted. -/
def Sys.destroyStep2 (s : Sys Arg Ret) (k : WId) : Sys Arg Ret :=
  (s.destroyStep1 k).remove_cancel k

/-- Full destruction of a wrapper impl (the last strong reference dropped):
`~safe_function_wrapper_impl` runs and the impl's storage is freed, so the
weak references to it no longer resolve. -/
def Sys.destroyWrapper (s : Sys Arg Ret) (k : WId) : Sys Arg Ret :=
  let s2 := s.destroyStep2 k
  { s2 with impls := setImpl s2.impls k none }

/-- State in the middle of `safe_function_wrapper`'s constructor (after
line 170: the impl has been created — with the callable stored in its
`callable` slot — and the cancellation entry built, but `add_cancellable`
has not yet run). -/
def Sys.constructMid (s : Sys Arg Ret) (k : WId) (f : Arg → Ret) (p : DefaultPolicy)
    (d : Ret) : Sys Arg Ret :=
  { s with
    impls := setImpl s.impls k (some ⟨some f, p, d, false⟩)
    allocated := fun j => if j = k then true else s.allocated j }

/-- End of `safe_function_wrapper`'s constructor (lines 167–173): after
`constructMid`, `add_cancellable` (lines 60–82) runs: if `is_cancelled`, the
cancellation entry is invoked immediately (clearing the fresh impl's callable
slot) and nothing is inserted; otherwise the entry is inserted into the
table.  (Sequentially the two cancelled checks of `add_cancellable` observe
the same flag; the interleaved double-checked behaviour is modelled
separately by `Reg6`.) -/
def Sys.constructFin (s : Sys Arg Ret) (k : WId) (f : Arg → Ret) (p : DefaultPolicy)
    (d : Ret) : Sys Arg Ret :=
  let s1 := s.constructMid k f p d
  if s1.cancelled then s1.entryInvoke k
  else { s1 with table := k :: s1.table }

/-- The operations that can act on the system state. -/
inductive Op (Arg Ret : Type) where
  | invoke (k : WId) (a : Arg)
  | entryInvoke (k : WId)
  | teardown
  | destroy (k : WId)
  | construct (k : WId) (f : Arg → Ret) (p : DefaultPolicy) (d : Ret)

/-- Apply one operation.  `construct` only acts at a fresh address (heap
allocations never reuse a live or previously used address in the model). -/
def applyOp [Inhabited Ret] (s : Sys Arg Ret) : Op Arg Ret → Sys Arg Ret
  | .invoke k a => s.invokeOp k a
  | .entryInvoke k => s.entryInvoke k
  | .teardown => s.teardown
  | .destroy k => s.destroyWrapper k
  | .construct k f p d => if s.allocated k then s else s.constructFin k f p d

/-- Run a list of operations left to right. -/
def runOps [Inhabited Ret] (s : Sys Arg Ret) (ops : List (Op Arg Ret)) : Sys Arg Ret :=
  ops.foldl applyOp s

/-- Well-formedness of reachable system states: the table has no duplicate
keys, a cancelled registry has already drained its table (the only writer of
`is_cancelled` clears the table before releasing the lock), and a destroyed
registry was cancelled first. -/
def Sys.WF (s : Sys Arg Ret) : Prop :=
  s.table.Nodup ∧ (s.cancelled = true → s.table = []) ∧
    (s.registryAlive = false → s.cancelled = true)

/-- Address `k` holds a cancelled (or already destroyed) wrapper: the address
has been allocated and, while the impl is alive, its callable slot is empty. -/
def Sys.CancelledAt (s : Sys Arg Ret) (k : WId) : Prop :=
  s.allocated k = true ∧ ∀ w, s.impls k = some w → w.callable = none

/-! ### Lock-order model

The header uses two lock domains: the registry's `std::mutex` and each
wrapper impl's `std::recursive_mutex`.  Each operation's sequence of lock
acquisitions and releases is read off the source, and nesting is analysed
over these traces. -/

/-- The two lock domains of the header. -/
inductive LockId where
  | registry
  | wrapper (k : WId)
deriving DecidableEq

/-- A lock acquisition or release performed by an operation. -/
inductive LockEvent where
  | acquire (l : LockId)
  | release (l : LockId)
deriving DecidableEq

/-- The `lock_guard` on a wrapper impl's mutex taken by
`safe_function_wrapper::cancel` / `operator()`. -/
def wrapperLockPair (k : WId) : List LockEvent :=
  [.acquire (.wrapper k), .release (.wrapper k)]

/-- The operations of the header, abstracted to the data deciding which
locks they take. -/
inductive LockOp where
  /-- `~safe_callbacks` with the given still-alive table keys. -/
  | teardown (aliveKeys : List WId)
  /-- a cancellation entry invoked on its own (`safe_function_wrapper::cancel`);
  `alive` is whether the weak reference to the impl resolves. -/
  | entryCancel (k : WId) (alive : Bool)
  /-- `safe_function_wrapper::operator()`. -/
  | invokeW (k : WId)
  /-- a wrapper's deregistration path (`~safe_function_wrapper_impl` →
  `remove_cancel` → `remove_cancellable`); note the destructor holds no
  wrapper lock. -/
  | deregister (registryAlive cancelled : Bool)
  /-- `safe_callbacks_impl::add_cancellable` for wrapper `k`;
  `fastCancelled` / `recheckCancelled` are the outcomes of the two reads of
  `is_cancelled`. -/
  | registerW (k : WId) (fastCancelled recheckCancelled : Bool)

/-- Lock events of each operation, read off `SafeCallbacks.hpp`:
teardown (lines 255–265) locks the registry then, per table entry, invokes
the entry, which locks that wrapper (line 231); an entry invocation or
`operator()` locks only the wrapper; deregistration locks only the registry
(line 95), and only when the registry is alive and not cancelled;
`add_cancellable` (lines 60–82) invokes the entry without the registry lock
on the fast path, else locks the registry and invokes the entry under it
when the re-check sees the flag. -/
def LockOp.trace : LockOp → List LockEvent
  | .teardown ks =>
      .acquire .registry ::
        (ks.foldr (fun k acc => wrapperLockPair k ++ acc) [] ++ [.release .registry])
  | .entryCancel k alive => if alive then wrapperLockPair k else []
  | .invokeW k => wrapperLockPair k
  | .deregister registryAlive cancelled =>
      if registryAlive && !cancelled then [.acquire .registry, .release .registry] else []
  | .registerW k fastCancelled recheckCancelled =>
      if fastCancelled then wrapperLockPair k
      else
        .acquire .registry ::
          ((if recheckCancelled then wrapperLockPair k else []) ++ [.release .registry])

/-- For each acquire event of a trace, the set of locks held at that moment. -/
def acquireEventsAux : List LockEvent → List LockId → List (LockId × List LockId)
  | [], _ => []
  | .acquire l :: rest, held => (l, held) :: acquireEventsAux rest (l :: held)
  | .release l :: rest, held => acquireEventsAux rest (held.erase l)

/-- The trace acquires `inner` at a moment when `outer` is already held. -/
def acquiresWhileHolding (tr : List LockEvent) (inner outer : LockId) : Prop :=
  ∃ p ∈ acquireEventsAux tr [], p.1 = inner ∧ outer ∈ p.2

instance acquiresWhileHoldingDec (tr : List LockEvent) (inner outer : LockId) :
    Decidable (acquiresWhileHolding tr inner outer) := by
  unfold acquiresWhileHolding
  infer_instance

/-! ### Interleaved registration vs. teardown

`add_cancellable` races with `~safe_callbacks` on two shared locations: the
`is_cancelled` flag (read without the lock on the fast path) and the table
(guarded by the registry lock).  `Reg6` is the joint state of one
registration and one teardown running concurrently, at the granularity of
the source's atomic actions. -/

/-- Joint state of one in-flight registration (program counter `rpc`) and
one teardown (`tpc`).  `lockOwner` is `some true` when the registration
thread holds the registry lock, `some false` for the teardown thread.
`inTable` is whether the registration's entry is in the table, `wCancelled`
whether the wrapper's cancellation entry has been invoked.

Registration (`add_cancellable`, lines 60–82): `rpc = 0`: fast-path read of
`is_cancelled` — if set, invoke the entry and finish; `1`: acquire the
registry lock; `2`: re-check `is_cancelled` under the lock — if set, invoke
the entry, unlock, finish; `3`: insert the entry and unlock; `4`: done.

Teardown (`~safe_callbacks`, lines 250–266): `tpc = 0`: store
`is_cancelled = true` (no lock); `1`: acquire the registry lock; `2`: sweep —
invoke every entry in the table, clear it, unlock; `3`: done. -/
structure Reg6 where
  cancelled : Bool
  lockOwner : Option Bool
  inTable : Bool
  wCancelled : Bool
  rpc : Fin 5
  tpc : Fin 4
deriving DecidableEq, Fintype

/-- One atomic action of the chosen thread (`true` = registration thread,
`false` = teardown thread); a thread blocked on the registry lock, or
already finished, leaves the state unchanged. -/
def step6 (s : Reg6) (c : Bool) : Reg6 :=
  if c then
    if s.rpc = 0 then
      if s.cancelled then { s with wCancelled := true, rpc := 4 } else { s with rpc := 1 }
    else if s.rpc = 1 then
      if s.lockOwner = none then { s with lockOwner := some true, rpc := 2 } else s
    else if s.rpc = 2 then
      if s.cancelled then { s with wCancelled := true, lockOwner := none, rpc := 4 }
      else { s with rpc := 3 }
    else if s.rpc = 3 then { s with inTable := true, lockOwner := none, rpc := 4 }
    else s
  else
    if s.tpc = 0 then { s with cancelled := true, tpc := 1 }
    else if s.tpc = 1 then
      if s.lockOwner = none then { s with lockOwner := some false, tpc := 2 } else s
    else if s.tpc = 2 then
      { s with wCancelled := s.wCancelled || s.inTable, inTable := false,
               lockOwner := none, tpc := 3 }
    else s

/-- Initial state: flag clear, lock free, table empty, wrapper not cancelled,
both threads at their first action. -/
def init6 : Reg6 := ⟨false, none, false, false, 0, 0⟩

/-- Run an interleaving schedule. -/
def run6 (s : Reg6) (sched : List Bool) : Reg6 :=
  sched.foldl step6 s

/-- Both threads have finished. -/
def done6 (s : Reg6) : Prop := s.rpc = 4 ∧ s.tpc = 3

/-- Inductive invariant of the registration/teardown race, checked over the
whole finite state space. -/
def inv6 (s : Reg6) : Prop :=
  (1 ≤ s.tpc.val → s.cancelled = true) ∧
  (s.rpc = 2 → s.lockOwner = some true) ∧
  (s.rpc = 3 → s.lockOwner = some true) ∧
  (s.tpc = 2 → s.lockOwner = some false) ∧
  (s.rpc = 3 → s.tpc.val ≤ 1) ∧
  (s.tpc = 3 → s.inTable = false) ∧
  (s.inTable = true → s.rpc = 4) ∧
  (s.rpc = 4 → s.wCancelled = true ∨ s.inTable = true) ∧
  (s.rpc = 4 → s.tpc = 3 → s.wCancelled = true ∧ s.inTable = false)

/-! ### Static type constraints of `make_safe`

Lines 36–49 define the three trait predicates; the `make_safe` overloads
check them with `static_assert` (lines 289, 320–321), i.e. as functions of
the instantiating types alone, evaluated at compile time.  A C++ type is
abstracted to its relevant trait bits. -/

/-- The trait bits of a C++ type that the header's `static_assert`s consult. -/
structure CppType where
  is_void : Bool
  is_default_constructible : Bool
  is_copy_constructible : Bool
  is_move_constructible : Bool
deriving DecidableEq, Fintype

/-- `is_constructible_rv` (lines 36–39): `R` void or default-constructible. -/
def is_constructible_rv (R : CppType) : Bool :=
  R.is_void || R.is_default_constructible

/-- `is_compatible_rv` (lines 41–44): `DVR` is the same type as `R` or
convertible to it; `same` and `convertible` are the two trait bits for the
pair. -/
def is_compatible_rv (same convertible : Bool) : Bool :=
  same || convertible

/-- `is_returnable_rv` (lines 46–49): `DVR` copy- or move-constructible. -/
def is_returnable_rv (D : CppType) : Bool :=
  D.is_copy_constructible || D.is_move_constructible

/-- Whether `make_safe(callable)` (line 289) compiles: its single
`static_assert`. -/
def make_safe_no_default_ok (R : CppType) : Bool :=
  is_constructible_rv R

/-- Whether `make_safe(default_return_value, callable)` (lines 320–321)
compiles: the conjunction of its two `static_assert`s. -/
def make_safe_with_default_ok (D : CppType) (same convertible : Bool) : Bool :=
  is_compatible_rv same convertible && is_returnable_rv D

/-! ### Copy/move of `safe_callbacks` (lines 244–249)

The copy and move constructors install a fresh, empty registry impl; the
copy and move assignment operators do nothing at all (wrapped callables are
tied to a specific object and are not transferred). -/

/-- A registry impl as seen through one `safe_callbacks` object. -/
structure RegistryState where
  is_cancelled : Bool
  cancellables : List WId
deriving DecidableEq

/-- `safe_callbacks(const safe_callbacks&)` (line 246): the new object's
impl is a fresh `safe_callbacks_impl` (flag clear, table empty); the source
is not read. -/
def safe_callbacks_copy_construct (_src : RegistryState) : RegistryState :=
  ⟨false, []⟩

/-- `safe_callbacks(safe_callbacks&&)` (line 248): same as copy
construction — a fresh impl, nothing taken from the source. -/
def safe_callbacks_move_construct (_src : RegistryState) : RegistryState :=
  ⟨false, []⟩

/-- `operator=(const safe_callbacks&)` (line 247): `return *this;` — the
target keeps its impl and the source is not read. -/
def safe_callbacks_copy_assign (tgt _src : RegistryState) : RegistryState :=
  tgt

/-- `operator=(safe_callbacks&&)` (line 249): `return *this;`. -/
def safe_callbacks_move_assign (tgt _src : RegistryState) : RegistryState :=
  tgt

/-! ### Sample states and inputs for the witnesses -/

/-- A live wrapper impl over `Nat` whose stored callable always fails,
instantiated at an `Except` result type. -/
def sampleErrImpl : WImpl Nat (Except Nat Nat) :=
  ⟨some (fun _ => Except.error 3), .valueInit, Except.ok 0, false⟩

/-- A system holding one already-cancelled wrapper impl at address `0`. -/
def sampleCancelledWrapperSys : Sys Nat Nat :=
  ⟨true, false, [0], fun j => if j = 0 then some ⟨none, .copyDefault, 7, false⟩ else none,
    fun j => j == 0⟩

/-- A live wrapper impl over `Nat`, with a copyable default of `7`. -/
def sampleImpl : WImpl Nat Nat :=
  ⟨some (fun n => n + 1), .copyDefault, 7, false⟩

/-- A healthy system: registry alive and not cancelled, `sampleImpl`
registered at address `0`. -/
def sampleSys : Sys Nat Nat :=
  ⟨true, false, [0], fun j => if j = 0 then some sampleImpl else none, fun j => j == 0⟩

/-- A registry whose `is_cancelled` flag is set but whose impl is still
alive (the state observed by a `make_safe` racing with teardown). -/
def cancelledSampleSys : Sys Nat Nat :=
  ⟨true, true, [], fun _ => none, fun _ => false⟩

/-! ### Helper lemmas -/

theorem setImpl_self (impls : WId → Option (WImpl Arg Ret)) (k : WId)
    (v : Option (WImpl Arg Ret)) : setImpl impls k v k = v := by
  simp [setImpl]

theorem setImpl_ne (impls : WId → Option (WImpl Arg Ret)) (k j : WId)
    (v : Option (WImpl Arg Ret)) (h : j ≠ k) : setImpl impls k v j = impls j := by
  simp [setImpl, h]

theorem setImpl_setImpl (impls : WId → Option (WImpl Arg Ret)) (k : WId)
    (v v' : Option (WImpl Arg Ret)) :
    setImpl (setImpl impls k v) k v' = setImpl impls k v' := by
  funext j
  by_cases h : j = k <;> simp [setImpl, h]

theorem cancelSelf_callable (w : WImpl Arg Ret) : w.cancelSelf.callable = none := rfl

theorem cancelSelf_default (w : WImpl Arg Ret) :
    w.cancelSelf.default_return_value = w.default_return_value := rfl

theorem cancelSelf_policy (w : WImpl Arg Ret) : w.cancelSelf.policy = w.policy := rfl

theorem cancelSelf_movedFrom (w : WImpl Arg Ret) : w.cancelSelf.movedFrom = w.movedFrom := rfl

theorem cancelSelf_idem (w : WImpl Arg Ret) : w.cancelSelf.cancelSelf = w.cancelSelf := rfl

theorem map_cancelSelf_idem (o : Option (WImpl Arg Ret)) :
    (o.map WImpl.cancelSelf).map WImpl.cancelSelf = o.map WImpl.cancelSelf := by
  cases o <;> rfl

theorem invoke_of_callable_none [Inhabited Ret] (w : WImpl Arg Ret) (a : Arg)
    (h : w.callable = none) :
    (w.invoke a).calledWith = none ∧ (w.invoke a).impl.callable = none := by
  cases hp : w.policy <;> simp [WImpl.invoke, h, hp]

theorem invoke_of_callable_some [Inhabited Ret] (w : WImpl Arg Ret) (f : Arg → Ret)
    (a : Arg) (h : w.callable = some f) :
    (w.invoke a).result = f a ∧ (w.invoke a).calledWith = some a ∧
      (w.invoke a).impl = w := by
  simp [WImpl.invoke, h]

theorem foldl_sweepOne_not_mem (ks : List WId) (impls : WId → Option (WImpl Arg Ret))
    (k : WId) (h : k ∉ ks) : ks.foldl sweepOne impls k = impls k := by
  induction ks generalizing impls with
  | nil => rfl
  | cons a ks ih =>
    have hka : k ≠ a := by
      intro e
      exact h (e ▸ List.mem_cons_self a ks)
    have h' : k ∉ ks := fun hm => h (List.mem_cons_of_mem _ hm)
    rw [List.foldl_cons, ih _ h']
    exact setImpl_ne _ _ _ _ hka

theorem foldl_sweepOne_mem (ks : List WId) (impls : WId → Option (WImpl Arg Ret))
    (k : WId) (h : k ∈ ks) :
    ks.foldl sweepOne impls k = (impls k).map WImpl.cancelSelf := by
  induction ks generalizing impls with
  | nil => cases h
  | cons a ks ih =>
    by_cases hk : k ∈ ks
    · rw [List.foldl_cons, ih _ hk]
      by_cases hka : k = a
      · subst hka
        rw [show sweepOne impls k k = (impls k).map WImpl.cancelSelf from setImpl_self ..]
        exact map_cancelSelf_idem _
      · rw [show sweepOne impls a k = impls k from setImpl_ne _ _ _ _ hka]
    · have hka : k = a := by
        rcases List.mem_cons.mp h with h1 | h2
        · exact h1
        · exact absurd h2 hk
      subst hka
      rw [List.foldl_cons, foldl_sweepOne_not_mem _ _ _ hk]
      exact setImpl_self ..

theorem teardown_impls_mem (s : Sys Arg Ret) (k : WId) (h : k ∈ s.table) :
    s.teardown.impls k = (s.impls k).map WImpl.cancelSelf :=
  foldl_sweepOne_mem _ _ _ h

theorem entryInvoke_of_none (s : Sys Arg Ret) (k : WId) (h : s.impls k = none) :
    s.entryInvoke k = s := by
  simp [Sys.entryInvoke, h]

theorem entryInvoke_impls_self (s : Sys Arg Ret) (k : WId) (w : WImpl Arg Ret)
    (h : s.impls k = some w) : (s.entryInvoke k).impls k = some w.cancelSelf := by
  simp [Sys.entryInvoke, h, setImpl_self]

theorem entryInvoke_registryAlive (s : Sys Arg Ret) (k : WId) :
    (s.entryInvoke k).registryAlive = s.registryAlive := by
  unfold Sys.entryInvoke
  cases s.impls k <;> rfl

theorem entryInvoke_cancelled (s : Sys Arg Ret) (k : WId) :
    (s.entryInvoke k).cancelled = s.cancelled := by
  unfold Sys.entryInvoke
  cases s.impls k <;> rfl

theorem entryInvoke_table (s : Sys Arg Ret) (k : WId) :
    (s.entryInvoke k).table = s.table := by
  unfold Sys.entryInvoke
  cases s.impls k <;> rfl

theorem entryInvoke_allocated (s : Sys Arg Ret) (k : WId) :
    (s.entryInvoke k).allocated = s.allocated := by
  unfold Sys.entryInvoke
  cases s.impls k <;> rfl

theorem entryInvoke_impls_ne (s : Sys Arg Ret) (k j : WId) (h : j ≠ k) :
    (s.entryInvoke k).impls j = s.impls j := by
  unfold Sys.entryInvoke
  cases hw : s.impls k
  · rfl
  · exact setImpl_ne _ _ _ _ h

theorem entryInvoke_idem (s : Sys Arg Ret) (k : WId) :
    (s.entryInvoke k).entryInvoke k = s.entryInvoke k := by
  cases hw : s.impls k with
  | none => rw [entryInvoke_of_none s k hw, entryInvoke_of_none s k hw]
  | some w =>
    have h1 : (s.entryInvoke k).impls k = some w.cancelSelf := entryInvoke_impls_self s k w hw
    show Sys.entryInvoke _ k = _
    rw [Sys.entryInvoke, h1]
    simp only [Sys.entryInvoke, hw]
    rw [cancelSelf_idem, setImpl_setImpl]

theorem invokeOp_registryAlive [Inhabited Ret] (s : Sys Arg Ret) (k : WId) (a : Arg) :
    (s.invokeOp k a).registryAlive = s.registryAlive := by
  unfold Sys.invokeOp
  cases s.impls k <;> rfl

theorem invokeOp_cancelled [Inhabited Ret] (s : Sys Arg Ret) (k : WId) (a : Arg) :
    (s.invokeOp k a).cancelled = s.cancelled := by
  unfold Sys.invokeOp
  cases s.impls k <;> rfl

theorem invokeOp_table [Inhabited Ret] (s : Sys Arg Ret) (k : WId) (a : Arg) :
    (s.invokeOp k a).table = s.table := by
  unfold Sys.invokeOp
  cases s.impls k <;> rfl

theorem invokeOp_allocated [Inhabited Ret] (s : Sys Arg Ret) (k : WId) (a : Arg) :
    (s.invokeOp k a).allocated = s.allocated := by
  unfold Sys.invokeOp
  cases s.impls k <;> rfl

theorem invokeOp_impls_ne [Inhabited Ret] (s : Sys Arg Ret) (k j : WId) (a : Arg)
    (h : j ≠ k) : (s.invokeOp k a).impls j = s.impls j := by
  unfold Sys.invokeOp
  cases s.impls k
  · rfl
  · exact setImpl_ne _ _ _ _ h

theorem destroyWrapper_impls_self (s : Sys Arg Ret) (k : WId) :
    (s.destroyWrapper k).impls k = none := by
  unfold Sys.destroyWrapper
  exact setImpl_self ..

theorem destroyWrapper_impls_ne (s : Sys Arg Ret) (k j : WId) (h : j ≠ k) :
    (s.destroyWrapper k).impls j = s.impls j := by
  unfold Sys.destroyWrapper Sys.destroyStep2 Sys.remove_cancel Sys.remove_cancellable
    Sys.destroyStep1
  by_cases h1 : s.registryAlive <;> by_cases h2 : s.cancelled <;>
    simp [h1, h2, setImpl_ne _ _ _ _ h]

theorem destroyWrapper_allocated (s : Sys Arg Ret) (k : WId) :
    (s.destroyWrapper k).allocated = s.allocated := by
  unfold Sys.destroyWrapper Sys.destroyStep2 Sys.remove_cancel Sys.remove_cancellable
    Sys.destroyStep1
  by_cases h1 : s.registryAlive <;> by_cases h2 : s.cancelled <;> simp [h1, h2]

theorem destroyStep1_impls_self (s : Sys Arg Ret) (k : WId) :
    (s.destroyStep1 k).impls k = (s.impls k).map WImpl.cancelSelf :=
  setImpl_self ..

theorem destroyStep2_table_alive_notcancelled (s : Sys Arg Ret) (k : WId)
    (h1 : s.registryAlive = true) (h2 : s.cancelled = false) :
    (s.destroyStep2 k).table = s.table.erase k := by
  unfold Sys.destroyStep2 Sys.remove_cancel Sys.remove_cancellable Sys.destroyStep1
  simp [h1, h2]

theorem destroyStep2_table_dead (s : Sys Arg Ret) (k : WId)
    (h1 : s.registryAlive = false) : (s.destroyStep2 k).table = s.table := by
  unfold Sys.destroyStep2 Sys.remove_cancel Sys.remove_cancellable Sys.destroyStep1
  simp [h1]

theorem destroyStep2_table_cancelled (s : Sys Arg Ret) (k : WId)
    (h2 : s.cancelled = true) : (s.destroyStep2 k).table = s.table := by
  unfold Sys.destroyStep2 Sys.remove_cancel Sys.remove_cancellable Sys.destroyStep1
  by_cases h1 : s.registryAlive <;> simp [h1, h2]

theorem destroyWrapper_table (s : Sys Arg Ret) (k : WId) :
    (s.destroyWrapper k).table = (s.destroyStep2 k).table := rfl

theorem entryInvoke_destroyWrapper (s : Sys Arg Ret) (k : WId) :
    (s.destroyWrapper k).entryInvoke k = s.destroyWrapper k :=
  entryInvoke_of_none _ _ (destroyWrapper_impls_self s k)

theorem destroyStep1_entryInvoke (s : Sys Arg Ret) (k : WId) :
    (s.entryInvoke k).destroyStep1 k = s.destroyStep1 k := by
  cases hw : s.impls k with
  | none => rw [entryInvoke_of_none s k hw]
  | some w =>
    simp [Sys.entryInvoke, hw, Sys.destroyStep1, setImpl_self, setImpl_setImpl,
      cancelSelf_idem]

theorem destroyWrapper_entryInvoke (s : Sys Arg Ret) (k : WId) :
    (s.entryInvoke k).destroyWrapper k = s.destroyWrapper k := by
  unfold Sys.destroyWrapper Sys.destroyStep2 Sys.remove_cancel Sys.remove_cancellable
  rw [destroyStep1_entryInvoke]

theorem entryInvoke_iterate (s : Sys Arg Ret) (k : WId) (n : ℕ) (hn : 1 ≤ n) :
    (fun t => Sys.entryInvoke t k)^[n] s = s.entryInvoke k := by
  induction n with
  | zero => exact absurd hn (by omega)
  | succ m ih =>
    by_cases hm : m = 0
    · subst hm
      simp
    · have h1 : 1 ≤ m := Nat.one_le_iff_ne_zero.mpr hm
      rw [Function.iterate_succ_apply', ih h1]
      exact entryInvoke_idem s k

theorem constructMid_impls_self (s : Sys Arg Ret) (k : WId) (f : Arg → Ret)
    (p : DefaultPolicy) (d : Ret) :
    (s.constructMid k f p d).impls k = some ⟨some f, p, d, false⟩ :=
  setImpl_self ..

theorem constructFin_impls_ne (s : Sys Arg Ret) (k j : WId) (f : Arg → Ret)
    (p : DefaultPolicy) (d : Ret) (h : j ≠ k) :
    (s.constructFin k f p d).impls j = s.impls j := by
  unfold Sys.constructFin
  by_cases hc : (s.constructMid k f p d).cancelled
  · simp only [hc, if_true]
    rw [entryInvoke_impls_ne _ _ _ h]
    exact setImpl_ne _ _ _ _ h
  · simp only [hc, if_false]
    exact setImpl_ne _ _ _ _ h

theorem constructFin_allocated (s : Sys Arg Ret) (k j : WId) (f : Arg → Ret)
    (p : DefaultPolicy) (d : Ret) :
    (s.constructFin k f p d).allocated j = if j = k then true else s.allocated j := by
  unfold Sys.constructFin
  by_cases hc : (s.constructMid k f p d).cancelled
  · simp only [hc, if_true]
    rw [entryInvoke_allocated]
    rfl
  · simp only [hc, if_false]
    rfl

theorem constructMid_cancelled (s : Sys Arg Ret) (k : WId) (f : Arg → Ret)
    (p : DefaultPolicy) (d : Ret) : (s.constructMid k f p d).cancelled = s.cancelled := rfl

theorem constructFin_cancelled_impls_self (s : Sys Arg Ret) (k : WId) (f : Arg → Ret)
    (p : DefaultPolicy) (d : Ret) (hc : s.cancelled = true) :
    (s.constructFin k f p d).impls k = some ⟨none, p, d, false⟩ := by
  unfold Sys.constructFin
  simp only [constructMid_cancelled, hc, if_true]
  exact entryInvoke_impls_self _ _ _ (constructMid_impls_self s k f p d)

theorem constructFin_cancelled_table (s : Sys Arg Ret) (k : WId) (f : Arg → Ret)
    (p : DefaultPolicy) (d : Ret) (hc : s.cancelled = true) :
    (s.constructFin k f p d).table = s.table := by
  unfold Sys.constructFin
  simp only [constructMid_cancelled, hc, if_true]
  rw [entryInvoke_table]
  rfl

theorem applyOp_allocated_mono [Inhabited Ret] (s : Sys Arg Ret) (k : WId)
    (op : Op Arg Ret) (ha : s.allocated k = true) :
    (applyOp s op).allocated k = true := by
  cases op with
  | invoke k' a => rw [show applyOp s (.invoke k' a) = s.invokeOp k' a from rfl,
      invokeOp_allocated]; exact ha
  | entryInvoke k' => rw [show applyOp s (.entryInvoke k') = s.entryInvoke k' from rfl,
      entryInvoke_allocated]; exact ha
  | teardown => exact ha
  | destroy k' => rw [show applyOp s (.destroy k') = s.destroyWrapper k' from rfl,
      destroyWrapper_allocated]; exact ha
  | construct k' f p d =>
    rw [show applyOp s (.construct k' f p d)
        = if s.allocated k' then s else s.constructFin k' f p d from rfl]
    by_cases hal : s.allocated k' = true
    · rw [if_pos hal]; exact ha
    · rw [if_neg hal, constructFin_allocated]
      by_cases hk : k = k' <;> simp [hk, ha]

theorem applyOp_impls_cases [Inhabited Ret] (s : Sys Arg Ret) (k : WId)
    (op : Op Arg Ret) (ha : s.allocated k = true) :
    (applyOp s op).impls k = s.impls k ∨
    (applyOp s op).impls k = (s.impls k).map WImpl.cancelSelf ∨
    (applyOp s op).impls k = none ∨
    (∃ w a, s.impls k = some w ∧ (applyOp s op).impls k = some (w.invoke a).impl) := by
  cases op with
  | invoke k' a =>
    rw [show applyOp s (.invoke k' a) = s.invokeOp k' a from rfl]
    by_cases hk : k = k'
    · subst hk
      cases hw : s.impls k with
      | none => left; simp [Sys.invokeOp, hw]
      | some w =>
        right; right; right
        refine ⟨w, a, rfl, ?_⟩
        simp [Sys.invokeOp, hw, setImpl_self]
    · left; exact invokeOp_impls_ne s k' k a hk
  | entryInvoke k' =>
    rw [show applyOp s (.entryInvoke k') = s.entryInvoke k' from rfl]
    by_cases hk : k = k'
    · subst hk
      cases hw : s.impls k with
      | none =>
        left
        rw [entryInvoke_of_none s k hw]
        exact hw
      | some w =>
        right; left
        rw [entryInvoke_impls_self s k w hw]
        rfl
    · left; exact entryInvoke_impls_ne s k' k hk
  | teardown =>
    rw [show applyOp s .teardown = s.teardown from rfl]
    by_cases hk : k ∈ s.table
    · right; left; exact teardown_impls_mem s k hk
    · left; exact foldl_sweepOne_not_mem _ _ _ hk
  | destroy k' =>
    rw [show applyOp s (.destroy k') = s.destroyWrapper k' from rfl]
    by_cases hk : k = k'
    · subst hk; right; right; left; exact destroyWrapper_impls_self s k
    · left; exact destroyWrapper_impls_ne s k' k hk
  | construct k' f p d =>
    rw [show applyOp s (.construct k' f p d)
        = if s.allocated k' then s else s.constructFin k' f p d from rfl]
    by_cases hal : s.allocated k' = true
    · left; rw [if_pos hal]
    · have hk : k ≠ k' := by
        intro e
        exact hal (e ▸ ha)
      left
      rw [if_neg hal]
      exact constructFin_impls_ne s k' k f p d hk

theorem cancelledAt_applyOp [Inhabited Ret] (s : Sys Arg Ret) (k : WId)
    (op : Op Arg Ret) (h : s.CancelledAt k) : (applyOp s op).CancelledAt k := by
  obtain ⟨ha, hc⟩ := h
  refine ⟨applyOp_allocated_mono s k op ha, ?_⟩
  intro w hw
  rcases applyOp_impls_cases s k op ha with hcase | hcase | hcase | ⟨w0, a, hw0, hcase⟩
  · exact hc w (hcase ▸ hw)
  · rw [hcase] at hw
    cases hw' : s.impls k with
    | none => rw [hw'] at hw; exact Option.noConfusion hw
    | some w1 =>
      rw [hw'] at hw
      have : w = w1.cancelSelf := by
        simpa using hw.symm
      rw [this]
      exact cancelSelf_callable w1
  · rw [hcase] at hw; exact Option.noConfusion hw
  · rw [hcase] at hw
    have hww : w = (w0.invoke a).impl := by
      simpa using hw.symm
    rw [hww]
    exact (invoke_of_callable_none w0 a (hc w0 hw0)).2

theorem cancelledAt_runOps [Inhabited Ret] (s : Sys Arg Ret) (k : WId)
    (ops : List (Op Arg Ret)) (h : s.CancelledAt k) : (runOps s ops).CancelledAt k := by
  induction ops generalizing s with
  | nil => exact h
  | cons op ops ih => exact ih _ (cancelledAt_applyOp s k op h)

instance inv6Dec (s : Reg6) : Decidable (inv6 s) := by
  unfold inv6
  infer_instance

instance done6Dec (s : Reg6) : Decidable (done6 s) := by
  unfold done6
  infer_instance

theorem inv6_init : inv6 init6 := by decide

set_option maxRecDepth 100000 in
set_option maxHeartbeats 1000000 in
theorem inv6_step : ∀ s : Reg6, ∀ c : Bool, inv6 s → inv6 (step6 s c) := by decide

theorem inv6_run (sched : List Bool) (s : Reg6) (h : inv6 s) : inv6 (run6 s sched) := by
  induction sched generalizing s with
  | nil => exact h
  | cons c rest ih => exact ih _ (inv6_step s c h)

theorem acquireEventsAux_teardown (ks : List WId) :
    acquireEventsAux
        (ks.foldr (fun k acc => wrapperLockPair k ++ acc) [] ++ [.release .registry])
        [.registry] =
      ks.map (fun k => (LockId.wrapper k, [LockId.registry])) := by
  induction ks with
  | nil => rfl
  | cons a ks ih =>
    have hsplit : (List.foldr (fun k acc => wrapperLockPair k ++ acc) [] (a :: ks))
          ++ [LockEvent.release .registry]
        = LockEvent.acquire (.wrapper a) :: LockEvent.release (.wrapper a) ::
          (List.foldr (fun k acc => wrapperLockPair k ++ acc) [] ks
            ++ [LockEvent.release .registry]) := by
      simp [wrapperLockPair]
    rw [hsplit]
    show (LockId.wrapper a, [LockId.registry]) ::
        acquireEventsAux
          (List.foldr (fun k acc => wrapperLockPair k ++ acc) [] ks
            ++ [LockEvent.release LockId.registry])
          ((LockId.wrapper a :: [LockId.registry]).erase (LockId.wrapper a))
      = (a :: ks).map (fun k => (LockId.wrapper k, [LockId.registry]))
    rw [List.erase_cons_head, ih]
    rfl

/-! ### The claims -/

/-- Claim C1: for every wrapper registered before the registry's teardown,
invoking it after teardown does not call the original callable, leaves the
registry (owner) state and every other wrapper untouched, and returns per
the default-result policy: the trivial value for a void result, a
value-initialised default when no explicit default was given, a copy of the
stored default when it is copy constructible, and the stored default by
move otherwise. -/
theorem C1_invoke_after_teardown [Inhabited Ret] (s : Sys Arg Ret) (k : WId)
    (w : WImpl Arg Ret) (hw : s.impls k = some w) (hk : k ∈ s.table) (a : Arg) :
    s.teardown.impls k = some w.cancelSelf ∧
    (w.cancelSelf.invoke a).calledWith = none ∧
    (s.teardown.invokeOp k a).registryAlive = s.teardown.registryAlive ∧
    (s.teardown.invokeOp k a).cancelled = s.teardown.cancelled ∧
    (s.teardown.invokeOp k a).table = s.teardown.table ∧
    (∀ j, j ≠ k → (s.teardown.invokeOp k a).impls j = s.teardown.impls j) ∧
    (w.policy = .voidResult →
      (w.cancelSelf.invoke a).result = default ∧
        (w.cancelSelf.invoke a).impl = w.cancelSelf) ∧
    (w.policy = .valueInit →
      (w.cancelSelf.invoke a).result = default ∧
        (w.cancelSelf.invoke a).impl = w.cancelSelf) ∧
    (w.policy = .copyDefault →
      (w.cancelSelf.invoke a).result = w.default_return_value ∧
        (w.cancelSelf.invoke a).impl = w.cancelSelf) ∧
    (w.policy = .moveDefault →
      (w.cancelSelf.invoke a).result = w.default_return_value ∧
        (w.cancelSelf.invoke a).impl = { w.cancelSelf with movedFrom := true }) := by
  refine ⟨?_, (invoke_of_callable_none w.cancelSelf a (cancelSelf_callable w)).1,
    invokeOp_registryAlive _ _ _, invokeOp_cancelled _ _ _, invokeOp_table _ _ _,
    fun j hj => invokeOp_impls_ne _ _ _ _ hj, ?_, ?_, ?_, ?_⟩
  · rw [teardown_impls_mem s k hk, hw]
    rfl
  all_goals intro hp
  all_goals simp [WImpl.invoke, WImpl.cancelSelf, hp]

theorem C1_witness :
    sampleSys.teardown.impls 0 = some sampleImpl.cancelSelf ∧
    (sampleImpl.cancelSelf.invoke 5).calledWith = none ∧
    (sampleImpl.cancelSelf.invoke 5).result = sampleImpl.default_return_value :=
  ⟨(C1_invoke_after_teardown sampleSys 0 sampleImpl rfl (by decide) 5).1,
   (C1_invoke_after_teardown sampleSys 0 sampleImpl rfl (by decide) 5).2.1,
   ((C1_invoke_after_teardown sampleSys 0 sampleImpl rfl (by decide) 5).2.2.2.2.2.2.2.2.1
     rfl).1⟩

/-- Claim C2: the cancel action, whether triggered by the teardown sweep or
by the wrapper's own destruction, clears the callable slot and retains the
stored default unchanged, and the wrapper's table entry is (best-effort)
removed — gone after the sweep, erased by the destruction path when the
registry is alive, and the removal ignored when the registry is already
gone. -/
theorem C2_cancel_clears_retains_removes (s : Sys Arg Ret) (k : WId)
    (w : WImpl Arg Ret) (hwf : s.WF) (hw : s.impls k = some w) :
    (k ∈ s.table → s.teardown.impls k = some w.cancelSelf ∧ k ∉ s.teardown.table) ∧
    (s.destroyStep1 k).impls k = some w.cancelSelf ∧
    w.cancelSelf.callable = none ∧
    w.cancelSelf.default_return_value = w.default_return_value ∧
    k ∉ (s.destroyWrapper k).table ∧
    (s.registryAlive = false → (s.destroyStep2 k).table = s.table) := by
  obtain ⟨hnodup, hdrained, halive⟩ := hwf
  refine ⟨?_, ?_, cancelSelf_callable w, cancelSelf_default w, ?_, ?_⟩
  · intro hk
    constructor
    · rw [teardown_impls_mem s k hk, hw]
      rfl
    · intro hmem
      exact absurd hmem (List.not_mem_nil k)
  · rw [destroyStep1_impls_self, hw]
    rfl
  · rw [destroyWrapper_table]
    cases hc : s.cancelled with
    | true =>
      rw [destroyStep2_table_cancelled s k hc, hdrained hc]
      exact List.not_mem_nil k
    | false =>
      cases hal : s.registryAlive with
      | false => exact absurd (halive hal) (by rw [hc]; exact Bool.noConfusion)
      | true =>
        rw [destroyStep2_table_alive_notcancelled s k hal hc]
        intro hmem
        exact (hnodup.mem_erase_iff.mp hmem).1 rfl
  · intro hdead
    exact destroyStep2_table_dead s k hdead

theorem C2_witness :
    (sampleSys.destroyStep1 0).impls 0 = some sampleImpl.cancelSelf ∧
    sampleImpl.cancelSelf.default_return_value = sampleImpl.default_return_value ∧
    0 ∉ (sampleSys.destroyWrapper 0).table := by
  have h := C2_cancel_clears_retains_removes sampleSys 0 sampleImpl
    ⟨by decide, fun hc => absurd hc (by decide), fun ha => absurd ha (by decide)⟩ rfl
  exact ⟨h.2.1, h.2.2.2.1, h.2.2.2.2.1⟩

/-- Claim C3 counterexample: as stated, the claim asserts a wrapper created
after the registry is cancelled never stores a callable; but the
constructor (line 170) stores the callable in the freshly built impl before
`add_cancellable` runs, so mid-construction the callable slot is populated.
The proposition below — every impl observable during such a construction
has an empty callable slot — is false at a concrete input. -/
theorem C3_counterexample :
    ¬ (∀ (s : Sys Nat Nat) (k : WId) (f : Nat → Nat) (p : DefaultPolicy) (d : Nat),
        s.cancelled = true →
        ∀ w, (s.constructMid k f p d).impls k = some w → w.callable = none) := by
  intro h
  have hmid := h cancelledSampleSys 0 (fun n => n + 1) .valueInit 0 rfl
    ⟨some (fun n => n + 1), .valueInit, 0, false⟩ (constructMid_impls_self ..)
  exact Option.noConfusion hmid

/-- Claim C3 (amended): a wrapper constructed while the registry's cancelled
flag is set is cancelled by the end of construction and never registered in
the table, and every subsequent invocation immediately returns the default
without calling any callable; however the callable is stored transiently in
the impl at construction and cleared by the immediate self-cancellation. -/
theorem C3_construct_after_cancelled [Inhabited Ret] (s : Sys Arg Ret) (k : WId)
    (f : Arg → Ret) (p : DefaultPolicy) (d : Ret) (hc : s.cancelled = true) :
    (s.constructMid k f p d).impls k = some ⟨some f, p, d, false⟩ ∧
    (s.constructFin k f p d).impls k = some ⟨none, p, d, false⟩ ∧
    (s.constructFin k f p d).table = s.table ∧
    ∀ a w', (s.constructFin k f p d).impls k = some w' →
      (w'.invoke a).calledWith = none ∧
      (p = .copyDefault → (w'.invoke a).result = d) := by
  refine ⟨constructMid_impls_self .., constructFin_cancelled_impls_self s k f p d hc,
    constructFin_cancelled_table s k f p d hc, ?_⟩
  intro a w' hw'
  rw [constructFin_cancelled_impls_self s k f p d hc] at hw'
  have hw'' : w' = ⟨none, p, d, false⟩ := (Option.some.inj hw').symm
  subst hw''
  constructor
  · exact (invoke_of_callable_none _ a rfl).1
  · intro hpc
    subst hpc
    rfl

theorem C3_witness :
    (cancelledSampleSys.constructFin 0 (fun n => n + 1) .copyDefault 7).impls 0
        = some ⟨none, .copyDefault, 7, false⟩ ∧
    (cancelledSampleSys.constructFin 0 (fun n => n + 1) .copyDefault 7).table = [] := by
  have h := C3_construct_after_cancelled cancelledSampleSys 0 (fun n => n + 1)
    .copyDefault 7 rfl
  exact ⟨h.2.1, h.2.2.1⟩

/-- Claim C4 counterexample: as stated, the claim asserts that in no
operation does the registry hold its own lock while trying to acquire a
wrapper's lock; but the teardown sweep of `~safe_callbacks` (lines 257–264)
invokes each cancellation entry — which locks that wrapper (line 231) —
while the registry's `lock_guard` is held, so the proposition is false for
a teardown over a one-entry table. -/
theorem C4_counterexample :
    ¬ (∀ (op : LockOp) (k : WId),
        ¬ acquiresWhileHolding op.trace (LockId.wrapper k) LockId.registry) := by
  intro h
  exact h (.teardown [0]) 0 (by decide)

/-- Claim C4 (amended): the registry lock does get held across the wrapper
lock acquisitions of the teardown sweep, but the nesting is only ever
registry-then-wrapper: no operation of the header acquires the registry
lock while holding any wrapper's lock (in particular a wrapper's
deregistration calls into the registry without holding its own lock), so
the two domains are never nested in conflicting order. -/
theorem C4_no_conflicting_nesting (op : LockOp) (p : LockId × List LockId)
    (hp : p ∈ acquireEventsAux op.trace []) (hreg : p.1 = LockId.registry) (k : WId) :
    LockId.wrapper k ∉ p.2 := by
  cases op with
  | teardown ks =>
    rw [show (LockOp.teardown ks).trace
        = .acquire .registry ::
          (ks.foldr (fun k acc => wrapperLockPair k ++ acc) []
            ++ [.release .registry]) from rfl] at hp
    rw [show acquireEventsAux
          (.acquire .registry ::
            (ks.foldr (fun k acc => wrapperLockPair k ++ acc) []
              ++ [.release .registry])) []
        = (LockId.registry, []) ::
          acquireEventsAux
            (ks.foldr (fun k acc => wrapperLockPair k ++ acc) []
              ++ [.release .registry]) [LockId.registry] from rfl,
      acquireEventsAux_teardown ks] at hp
    rcases List.mem_cons.mp hp with hp1 | hp2
    · rw [hp1]
      exact List.not_mem_nil _
    · obtain ⟨k', _, hk'⟩ := List.mem_map.mp hp2
      rw [← hk'] at hreg
      exact absurd hreg (by intro e; exact LockId.noConfusion e)
  | entryCancel k' alive =>
    cases alive with
    | false => simp [LockOp.trace, acquireEventsAux] at hp
    | true =>
      simp [LockOp.trace, acquireEventsAux, wrapperLockPair] at hp
      rw [hp] at hreg
      simp at hreg
  | invokeW k' =>
    simp [LockOp.trace, acquireEventsAux, wrapperLockPair] at hp
    rw [hp] at hreg
    simp at hreg
  | deregister registryAlive cancelled =>
    cases registryAlive with
    | false => simp [LockOp.trace, acquireEventsAux] at hp
    | true =>
      cases cancelled with
      | true => simp [LockOp.trace, acquireEventsAux] at hp
      | false =>
        simp [LockOp.trace, acquireEventsAux] at hp
        rw [hp]
        exact List.not_mem_nil _
  | registerW k' fastCancelled recheckCancelled =>
    cases fastCancelled with
    | true =>
      simp [LockOp.trace, acquireEventsAux, wrapperLockPair] at hp
      rw [hp] at hreg
      simp at hreg
    | false =>
      cases recheckCancelled with
      | true =>
        simp [LockOp.trace, acquireEventsAux, wrapperLockPair,
          List.erase_cons_head] at hp
        rcases hp with hp | hp
        · rw [hp]
          exact List.not_mem_nil _
        · rw [hp] at hreg
          simp at hreg
      | false =>
        simp [LockOp.trace, acquireEventsAux] at hp
        rw [hp]
        exact List.not_mem_nil _

theorem C4_witness :
    LockId.wrapper 0 ∉ (LockId.registry, ([] : List LockId)).2 :=
  C4_no_conflicting_nesting (.deregister true false) (LockId.registry, [])
    (by decide) rfl 0

/-- Claim C5: invoking a wrapper's cancellation entry is idempotent — any
number `n ≥ 1` of invocations equals one invocation, and interleaving with
the wrapper's own destruction path (which self-cancels) has no further
effect: the entry after destruction is a no-op, and destruction after the
entry yields the same state as destruction alone. -/
theorem C5_cancel_idempotent (s : Sys Arg Ret) (k : WId) (n : ℕ) (hn : 1 ≤ n) :
    (fun t => Sys.entryInvoke t k)^[n] s = s.entryInvoke k ∧
    (s.entryInvoke k).entryInvoke k = s.entryInvoke k ∧
    (s.destroyWrapper k).entryInvoke k = s.destroyWrapper k ∧
    (s.entryInvoke k).destroyWrapper k = s.destroyWrapper k :=
  ⟨entryInvoke_iterate s k n hn, entryInvoke_idem s k,
    entryInvoke_destroyWrapper s k, destroyWrapper_entryInvoke s k⟩

theorem C5_witness :
    (fun t => Sys.entryInvoke t 0)^[3] sampleSys = sampleSys.entryInvoke 0 ∧
    (sampleSys.entryInvoke 0).entryInvoke 0 = sampleSys.entryInvoke 0 ∧
    (sampleSys.destroyWrapper 0).entryInvoke 0 = sampleSys.destroyWrapper 0 ∧
    (sampleSys.entryInvoke 0).destroyWrapper 0 = sampleSys.destroyWrapper 0 :=
  C5_cancel_idempotent sampleSys 0 3 (by decide)

/-- Claim C6: `add_cancellable` follows the double-checked pattern (fast
unlocked read of the cancelled flag, then a locked re-check), and in every
complete interleaving of one registration with a concurrent teardown the
registration's wrapper ends cancelled and no entry is left reachable in the
table once the cancelled flag is set. -/
theorem C6_double_checked_registration (sched : List Bool)
    (h : done6 (run6 init6 sched)) :
    (run6 init6 sched).wCancelled = true ∧ (run6 init6 sched).inTable = false := by
  have hinv := inv6_run sched init6 inv6_init
  exact hinv.2.2.2.2.2.2.2.2 h.1 h.2

theorem C6_witness :
    (run6 init6 [false, false, false, true]).wCancelled = true ∧
    (run6 init6 [false, false, false, true]).inTable = false :=
  C6_double_checked_registration [false, false, false, true] (by decide)

/-- Claim C7: a wrapper's validity is monotonic — once its callable slot is
cleared, no sequence of operations (invoke, entry invocation, teardown,
destruction, construction of new wrappers) ever makes it callable again, and
every later invocation takes the default-result path (never calling a
callable). -/
theorem C7_validity_monotonic [Inhabited Ret] (s : Sys Arg Ret) (k : WId)
    (ops : List (Op Arg Ret)) (h : s.CancelledAt k) :
    (runOps s ops).CancelledAt k ∧
    ∀ a w', (runOps s ops).impls k = some w' → (w'.invoke a).calledWith = none := by
  have h2 := cancelledAt_runOps s k ops h
  exact ⟨h2, fun a w' hw' => (invoke_of_callable_none w' a (h2.2 w' hw')).1⟩

theorem C7_witness :
    (runOps sampleCancelledWrapperSys [.teardown, .invoke 0 5]).CancelledAt 0 := by
  refine (C7_validity_monotonic sampleCancelledWrapperSys 0 [.teardown, .invoke 0 5]
    ⟨rfl, ?_⟩).1
  intro w hw
  have hw' : (⟨none, .copyDefault, 7, false⟩ : WImpl Nat Nat) = w := Option.some.inj hw
  rw [← hw']

/-- Claim C8: when the callable slot is present, `operator()` forwards the
arguments to the underlying callable and returns its result unchanged,
touching no other state; instantiated at an `Except` result type, an error
produced by the callable is returned to the caller unmodified — the wrapper
neither inspects, transforms, catches, nor swallows it (and the model's
`invoke`/`cancel` are total functions: no error originates in them). -/
theorem C8_invoke_forwards {Arg : Type} :
    (∀ (Ret : Type) [Inhabited Ret] (w : WImpl Arg Ret) (f : Arg → Ret) (a : Arg),
        w.callable = some f →
        (w.invoke a).result = f a ∧ (w.invoke a).calledWith = some a ∧
          (w.invoke a).impl = w) ∧
    (∀ (E V : Type) [Inhabited (Except E V)] (w : WImpl Arg (Except E V))
        (g : Arg → Except E V) (a : Arg) (e : E),
        w.callable = some g → g a = Except.error e →
        (w.invoke a).result = Except.error e) := by
  constructor
  · intro Ret _ w f a h
    exact invoke_of_callable_some w f a h
  · intro E V _ w g a e h he
    rw [(invoke_of_callable_some w g a h).1, he]

theorem C8_witness :
    (sampleImpl.invoke 4).result = (fun n => n + 1) 4 ∧
    (sampleErrImpl.invoke 9).result = Except.error 3 :=
  ⟨(C8_invoke_forwards.1 Nat sampleImpl (fun n => n + 1) 4 rfl).1,
   C8_invoke_forwards.2 Nat Nat sampleErrImpl (fun _ => Except.error 3) 9 3 rfl rfl⟩

/-- Claim C9: the type constraints of `make_safe` are the header's
`static_assert`s — functions of the instantiating types' trait bits alone,
evaluated at compile time, never per call: with no explicit default the
declared result type is rejected exactly when it is neither void nor
default-constructible, and an explicit default is accepted exactly when it
is the same as or convertible to the declared result type and is copy- or
move-constructible. -/
theorem C9_static_constraints :
    ∀ (R D : CppType) (same convertible : Bool),
      (make_safe_no_default_ok R = false ↔
        R.is_void = false ∧ R.is_default_constructible = false) ∧
      (make_safe_with_default_ok D same convertible = true ↔
        (same = true ∨ convertible = true) ∧
          (D.is_copy_constructible = true ∨ D.is_move_constructible = true)) := by
  decide

/-- Claim C10: copy- or move-constructing a `safe_callbacks` yields a fresh,
empty registry (flag clear, no table entries, sharing no wrapper with the
source), and copy/move assignment is a no-op returning the target unchanged
(and, being pure functions of their arguments here, touching neither
operand): wrappers are never transferred between registries. -/
theorem C10_copy_move_fresh (src tgt : RegistryState) :
    (safe_callbacks_copy_construct src).cancellables = [] ∧
    (safe_callbacks_copy_construct src).is_cancelled = false ∧
    (safe_callbacks_move_construct src).cancellables = [] ∧
    (safe_callbacks_move_construct src).is_cancelled = false ∧
    (∀ k, k ∈ src.cancellables → k ∉ (safe_callbacks_copy_construct src).cancellables) ∧
    (∀ k, k ∈ src.cancellables → k ∉ (safe_callbacks_move_construct src).cancellables) ∧
    safe_callbacks_copy_assign tgt src = tgt ∧
    safe_callbacks_move_assign tgt src = tgt := by
  refine ⟨rfl, rfl, rfl, rfl, ?_, ?_, rfl, rfl⟩ <;>
    (intro k _
     exact List.not_mem_nil k)

theorem C10_witness :
    (3 : WId) ∉ (safe_callbacks_copy_construct ⟨false, [3]⟩).cancellables :=
  (C10_copy_move_fresh ⟨false, [3]⟩ ⟨true, [9]⟩).2.2.2.2.1 3 (by decide)

end SafeCallbacks
